import Mathlib

/-!
Verification development for the expense tracker (`src/app.py`).

The Python program keeps a list of expense dictionaries in memory
(`ExpenseManager.expenses`) and mirrors it to a JSON file on every
mutation.  We embed it shallowly:

* an `Expense` structure stands for one expense dictionary
  (`id`, `description`, `amount`, `category`, `date`, `created_at`);
  Python floats are modelled by `Rat`;
* the JSON file content is modelled by a `Json` value, and
  `save_expenses` / `load_expenses` by serialization into that value;
* the manager state is `State` (in-memory list plus persisted file);
* each method becomes a function `State → ... → List Line × State`,
  where `Line` records the printed lines together with the values
  interpolated into them (so float formatting stays abstract);
* nondeterministic inputs (`datetime.now()`) become explicit arguments.
-/

set_option autoImplicit false

/-- One expense record, as produced by `ExpenseManager.add_expense`. -/
structure Expense where
  id : Int
  description : String
  amount : Rat
  category : String
  date : String
  created_at : String
deriving DecidableEq

/-- JSON values, the content of `expenses.json`.  Python's `json` module
distinguishes ints from floats, hence separate `jint` and `jnum`. -/
inductive Json where
  | jnull : Json
  | jbool : Bool → Json
  | jint : Int → Json
  | jnum : Rat → Json
  | jstr : String → Json
  | jarr : List Json → Json
  | jobj : List (String × Json) → Json

/-- Serialization of one expense dictionary, with the keys in the order
`add_expense` builds them. -/
def expense_to_json (e : Expense) : Json :=
  Json.jobj [("id", Json.jint e.id),
             ("description", Json.jstr e.description),
             ("amount", Json.jnum e.amount),
             ("category", Json.jstr e.category),
             ("date", Json.jstr e.date),
             ("created_at", Json.jstr e.created_at)]

/-- Serialization of the whole store (`json.dump(self.expenses, file)`). -/
def store_to_json (es : List Expense) : Json :=
  Json.jarr (es.map expense_to_json)

/-- Dictionary access `d[key]` on a JSON object. -/
def json_lookup : List (String × Json) → String → Option Json
  | [], _ => none
  | (k, v) :: rest, key => if k = key then some v else json_lookup rest key

/-- Reading one expense dictionary out of a loaded JSON value (the shape
`load_expenses` and every later field access rely on). -/
def expense_of_json (j : Json) : Option Expense :=
  match j with
  | Json.jobj fields =>
    match json_lookup fields "id", json_lookup fields "description",
          json_lookup fields "amount", json_lookup fields "category",
          json_lookup fields "date", json_lookup fields "created_at" with
    | some (Json.jint i), some (Json.jstr d), some (Json.jnum a),
      some (Json.jstr c), some (Json.jstr dt), some (Json.jstr ca) =>
      some { id := i, description := d, amount := a, category := c,
             date := dt, created_at := ca }
    | _, _, _, _, _, _ => none
  | _ => none

/-- Reading the whole store back (`json.load(file)`). -/
def store_of_json : Json → Option (List Expense)
  | Json.jarr xs => xs.mapM expense_of_json
  | _ => none

/-- Manager state: the in-memory list `self.expenses` and the persisted
file content (`none` when `expenses.json` does not exist). -/
structure State where
  expenses : List Expense
  file : Option Json

/-- `load_expenses` on construction: read the persisted store when the
file exists (reading the stored JSON back into expense records), start
empty otherwise; `none` stands for malformed stored content. -/
def load_expenses (file : Option Json) : Option (List Expense) :=
  match file with
  | some j => store_of_json j
  | none => some []

/-- The printed lines, each constructor one `print` in `app.py`, carrying
the values interpolated into the message. -/
inductive Line where
  | added : String → Rat → String → String → Line
  | emptyList : Line
  | expenseEntry : Expense → Line
  | edited : Int → Line
  | notFound : Int → Line
  | deleted : Int → Line
  | noMonthly : String → Line
  | monthlyHeader : String → Rat → Line
  | reportEntry : String → Rat → String → Line
  | noCategory : String → Line
  | categoryHeader : String → Rat → Line
deriving DecidableEq

/-- `save_expenses`: rewrite the file with the serialized in-memory list. -/
def save_expenses (s : State) : State :=
  { s with file := some (store_to_json s.expenses) }

/-- `add_expense`: build the record with `id = len(self.expenses) + 1`,
append, save, report.  `now` is the `datetime.now()` timestamp string. -/
def add_expense (s : State) (description : String) (amount : Rat)
    (category : String) (date : String) (now : String) : List Line × State :=
  let expense : Expense :=
    { id := (s.expenses.length : Int) + 1,
      description := description, amount := amount, category := category,
      date := date, created_at := now }
  let s1 := save_expenses { s with expenses := s.expenses ++ [expense] }
  ([Line.added description amount category date], s1)

/-- `list_expenses`: explicit message on an empty store, else one entry
per record in order. -/
def list_expenses (s : State) : List Line × State :=
  if s.expenses = [] then
    ([Line.emptyList], s)
  else
    (s.expenses.map Line.expenseEntry, s)

/-- Python truthiness of an optional string argument (`if description:`):
`None` and the empty string are falsy. -/
def truthy_str : Option String → Bool
  | none => false
  | some s => decide (s ≠ "")

/-- Python truthiness of an optional number argument (`if amount:`):
`None` and `0` are falsy. -/
def truthy_num : Option Rat → Bool
  | none => false
  | some a => decide (a ≠ 0)

/-- The in-place field updates performed on the matched expense inside
`edit_expense`: each field is overwritten exactly when its argument is
truthy. -/
def apply_edit (e : Expense) (description : Option String) (amount : Option Rat)
    (category : Option String) (date : Option String) : Expense :=
  let e1 := if truthy_str description
            then { e with description := description.getD e.description } else e
  let e2 := if truthy_num amount
            then { e1 with amount := amount.getD e1.amount } else e1
  let e3 := if truthy_str category
            then { e2 with category := category.getD e2.category } else e2
  if truthy_str date then { e3 with date := date.getD e3.date } else e3

/-- The `for expense in self.expenses:` loop of `edit_expense`: update the
first record whose `id` matches and stop; report whether one was found. -/
def edit_loop (es : List Expense) (i : Int) (description : Option String)
    (amount : Option Rat) (category : Option String) (date : Option String) :
    List Expense × Bool :=
  match es with
  | [] => ([], false)
  | e :: rest =>
    if e.id = i then
      (apply_edit e description amount category date :: rest, true)
    else
      let r := edit_loop rest i description amount category date
      (e :: r.1, r.2)

/-- `edit_expense`: on a match, save and report success; otherwise report
not-found without saving. -/
def edit_expense (s : State) (i : Int) (description : Option String)
    (amount : Option Rat) (category : Option String) (date : Option String) :
    List Line × State :=
  let r := edit_loop s.expenses i description amount category date
  if r.2 then
    ([Line.edited i], save_expenses { s with expenses := r.1 })
  else
    ([Line.notFound i], s)

/-- `delete_expense`: keep exactly the records whose `id` differs, then
save unconditionally. -/
def delete_expense (s : State) (i : Int) : List Line × State :=
  let s1 := save_expenses
    { s with expenses := s.expenses.filter (fun e => decide (e.id ≠ i)) }
  ([Line.deleted i], s1)

/-- Zero-padding of the month (`f"{month:02d}"` for a nonnegative month). -/
def pad2 (n : Nat) : String :=
  if n < 10 then "0" ++ toString n else toString n

/-- The `f"{year}-{month:02d}"` filter string of `monthly_report`. -/
def month_str (year month : Nat) : String :=
  toString year ++ "-" ++ pad2 month

/-- Character-list version of Python's `str.startswith`. -/
def starts_aux : List Char → List Char → Bool
  | [], _ => true
  | _ :: _, [] => false
  | a :: as, b :: bs => decide (a = b) && starts_aux as bs

/-- `s.startswith(p)`, written `starts_with p s`. -/
def starts_with (p s : String) : Bool :=
  starts_aux p.data s.data

/-- The list comprehension of `monthly_report`: records whose `date`
starts with the `"YYYY-MM"` string. -/
def monthly_sel (es : List Expense) (month year : Nat) : List Expense :=
  es.filter (fun e => starts_with (month_str year month) e.date)

/-- Python's `str.lower()`, character by character. -/
def str_lower (s : String) : String :=
  ⟨s.data.map Char.toLower⟩

/-- The list comprehension of `category_report`: records whose lowered
`category` equals the lowered argument. -/
def category_sel (es : List Expense) (category : String) : List Expense :=
  es.filter (fun e => decide (str_lower e.category = str_lower category))

/-- `sum(expense['amount'] for expense in ...)`. -/
def total_amount (es : List Expense) : Rat :=
  (es.map (fun e => e.amount)).sum

/-- `monthly_report`: explicit message when nothing matches, else the
total followed by one entry per match. -/
def monthly_report (s : State) (month year : Nat) : List Line × State :=
  let ms := month_str year month
  let sel := monthly_sel s.expenses month year
  if sel = [] then
    ([Line.noMonthly ms], s)
  else
    (Line.monthlyHeader ms (total_amount sel)
      :: sel.map (fun e => Line.reportEntry e.description e.amount e.date), s)

/-- `category_report`: explicit message when nothing matches, else the
total followed by one entry per match. -/
def category_report (s : State) (category : String) : List Line × State :=
  let sel := category_sel s.expenses category
  if sel = [] then
    ([Line.noCategory category], s)
  else
    (Line.categoryHeader category (total_amount sel)
      :: sel.map (fun e => Line.reportEntry e.description e.amount e.date), s)

/-- Arguments of one `add_expense` call (the prompted fields plus the
`datetime.now()` timestamp). -/
structure AddArgs where
  description : String
  amount : Rat
  category : String
  date : String
  now : String

/-- A sequence of `add_expense` calls, in order. -/
def add_all (s : State) (args : List AddArgs) : State :=
  args.foldl
    (fun t x => (add_expense t x.description x.amount x.category x.date x.now).2) s

/-- The empty starting state (fresh manager, no `expenses.json`). -/
def empty_state : State := { expenses := [], file := none }

/-- Concrete run exhibiting the documented id quirk: add two records
(ids 1 and 2), delete id 1, add again — the new record gets
`id = len + 1 = 2`, colliding with the surviving record. -/
def dup_state : State :=
  (add_expense
    (delete_expense
      (add_all empty_state
        [{ description := "a", amount := 1, category := "x",
           date := "2024-01-01", now := "t1" },
         { description := "b", amount := 2, category := "y",
           date := "2024-01-02", now := "t2" }]) 1).2
    "c" 3 "z" "2024-01-03" "t3").2

/-- Concrete record dated January 15 (monthly-filter example). -/
def exJan15 : Expense :=
  { id := 1, description := "groceries", amount := 10, category := "Food",
    date := "2024-01-15", created_at := "2024-01-15 08:00:00" }

/-- Concrete record dated February 1 (monthly-filter example). -/
def exFeb01 : Expense :=
  { id := 2, description := "bus", amount := 7, category := "Transit",
    date := "2024-02-01", created_at := "2024-02-01 09:00:00" }

/-- Concrete record dated January 31 (monthly-filter example). -/
def exJan31 : Expense :=
  { id := 3, description := "cafe", amount := 20, category := "Food",
    date := "2024-01-31", created_at := "2024-01-31 10:00:00" }

/-- Concrete record whose category is a strict superstring of "Food". -/
def exFast : Expense :=
  { id := 4, description := "burger", amount := 6, category := "Fast Food",
    date := "2024-01-20", created_at := "2024-01-20 12:00:00" }

/-- Concrete record standing before the edit target (id differs). -/
def edit_w1 : Expense :=
  { id := 7, description := "before", amount := 1, category := "m",
    date := "2024-04-01", created_at := "ta" }

/-- Concrete edit target. -/
def edit_target : Expense :=
  { id := 1, description := "Coffee", amount := 5, category := "Food",
    date := "2024-03-01", created_at := "t0" }

/-- Concrete record standing after the edit target. -/
def edit_w2 : Expense :=
  { id := 9, description := "after", amount := 2, category := "n",
    date := "2024-04-02", created_at := "tb" }

/-- First of two concrete records sharing id 1. -/
def dupA : Expense :=
  { id := 1, description := "first", amount := 3, category := "p",
    date := "2024-06-01", created_at := "tc" }

/-- Second of two concrete records sharing id 1. -/
def dupB : Expense :=
  { id := 1, description := "second", amount := 4, category := "q",
    date := "2024-06-02", created_at := "td" }

/-! ## Helper lemmas -/

/-- Serializing one expense and reading it back is the identity. -/
theorem expense_round_trip (e : Expense) :
    expense_of_json (expense_to_json e) = some e := rfl

/-- Serializing the store and reading it back is the identity. -/
theorem store_round_trip (es : List Expense) :
    store_of_json (store_to_json es) = some es := by
  induction es with
  | nil => rfl
  | cons e rest ih =>
    simp only [store_to_json, store_of_json, List.map_cons, List.mapM_cons] at *
    rw [expense_round_trip, ih]
    rfl

/-- When no record matches, the edit loop returns the list unchanged and
reports no match. -/
theorem edit_loop_no_match (es : List Expense) (i : Int) (d : Option String)
    (a : Option Rat) (c : Option String) (dt : Option String)
    (h : ∀ e ∈ es, e.id ≠ i) :
    edit_loop es i d a c dt = (es, false) := by
  induction es with
  | nil => rfl
  | cons e rest ih =>
    have he : e.id ≠ i := h e (List.mem_cons_self e rest)
    simp [edit_loop, he, ih (fun x hx => h x (List.mem_cons_of_mem e hx))]

/-- The edit loop rewrites exactly the first matching record. -/
theorem edit_loop_first_match (pre post : List Expense) (e : Expense) (i : Int)
    (d : Option String) (a : Option Rat) (c : Option String) (dt : Option String)
    (hpre : ∀ x ∈ pre, x.id ≠ i) (he : e.id = i) :
    edit_loop (pre ++ e :: post) i d a c dt
      = (pre ++ apply_edit e d a c dt :: post, true) := by
  induction pre with
  | nil => simp [edit_loop, he]
  | cons p rest ih =>
    have hp : p.id ≠ i := hpre p (List.mem_cons_self p rest)
    simp [edit_loop, hp, ih (fun x hx => hpre x (List.mem_cons_of_mem p hx))]

/-- When some record matches, the edit loop reports a match. -/
theorem edit_loop_found (es : List Expense) (i : Int) (d : Option String)
    (a : Option Rat) (c : Option String) (dt : Option String)
    (h : ∃ e ∈ es, e.id = i) :
    (edit_loop es i d a c dt).2 = true := by
  induction es with
  | nil => simp at h
  | cons e rest ih =>
    by_cases he : e.id = i
    · simp [edit_loop, he]
    · obtain ⟨x, hx, hxi⟩ := h
      rcases List.mem_cons.mp hx with h1 | h1
      · exact absurd (h1 ▸ hxi) he
      · simp [edit_loop, he, ih ⟨x, h1, hxi⟩]

/-- The field updates in `edit_expense`, written field by field: a field
changes exactly when its argument is truthy; `id` and `created_at` never
change. -/
theorem apply_edit_fields (e : Expense) (d : Option String) (a : Option Rat)
    (c : Option String) (dt : Option String) :
    apply_edit e d a c dt =
      { id := e.id,
        description := if truthy_str d then d.getD e.description else e.description,
        amount := if truthy_num a then a.getD e.amount else e.amount,
        category := if truthy_str c then c.getD e.category else e.category,
        date := if truthy_str dt then dt.getD e.date else e.date,
        created_at := e.created_at } := by
  simp only [apply_edit]
  split <;> split <;> split <;> split <;> rfl

/-- Each `add_expense` in a run appends one record whose id is the list
length plus one. -/
theorem add_all_ids (args : List AddArgs) (s : State) :
    (add_all s args).expenses.map (fun e => e.id)
      = s.expenses.map (fun e => e.id)
        ++ (List.range' (s.expenses.length + 1) args.length).map
             (fun n => (n : Int)) := by
  induction args generalizing s with
  | nil => simp [add_all]
  | cons x rest ih =>
    have step : add_all s (x :: rest)
        = add_all ((add_expense s x.description x.amount x.category x.date x.now).2)
            rest := rfl
    rw [step, ih]
    simp [add_expense, save_expenses, List.range'_succ]

/-- Character-list version of "starts with": a prefix plus a tail. -/
theorem starts_aux_iff (p s : List Char) :
    starts_aux p s = true ↔ ∃ t, s = p ++ t := by
  induction p generalizing s with
  | nil => simp [starts_aux]
  | cons a as ih =>
    cases s with
    | nil => simp [starts_aux]
    | cons b bs =>
      simp only [starts_aux, Bool.and_eq_true, decide_eq_true_eq, ih,
        List.cons_append, List.cons.injEq]
      constructor
      · rintro ⟨h1, t, h2⟩
        exact ⟨t, h1.symm, h2⟩
      · rintro ⟨t, h1, h2⟩
        exact ⟨h1.symm, t, h2⟩

/-- `s.startswith(p)` holds exactly when `s` is `p` followed by a tail. -/
theorem starts_with_iff (p s : String) :
    starts_with p s = true ↔ ∃ t : String, s = p ++ t := by
  constructor
  · intro h
    obtain ⟨t, ht⟩ := (starts_aux_iff p.data s.data).mp h
    refine ⟨⟨t⟩, ?_⟩
    cases s with
    | mk sd =>
      cases p with
      | mk pd =>
        simp only [String.data] at ht
        simp [ht]
        rfl
  · rintro ⟨t, rfl⟩
    refine (starts_aux_iff p.data (p ++ t).data).mpr ⟨t.data, ?_⟩
    cases p with
    | mk pd =>
      cases t with
      | mk td => rfl

/-! ## Claims -/

/-- Claim C1, counterexample: the amount argument `some 0` is present and
non-null, and only the amount is set, yet `edit_expense` leaves the
matching record completely unchanged (Python's `if amount:` treats `0`
as absent), instead of overwriting its amount with `0` as the claim
states. -/
theorem edit_present_zero_amount_not_overwritten :
    (edit_expense { expenses := [edit_target], file := none } 1
        none (some 0) none none).2.expenses = [edit_target]
  ∧ [edit_target] ≠ [{ edit_target with amount := 0 }] :=
  ⟨by decide, by decide⟩

/-- Claim C1, amended: `edit_expense` rewrites exactly the first record
whose id matches, leaving every record before and after it unchanged; on
that record it overwrites exactly the fields whose arguments are truthy
(a non-empty string, a non-null non-zero amount), never touching `id` or
`created_at`; in particular a non-zero amount passed alone changes only
the `amount` field. -/
theorem edit_updates_truthy_fields_of_first_match
    (pre post : List Expense) (e : Expense) (f : Option Json) (i : Int)
    (d : Option String) (a : Option Rat) (c : Option String) (dt : Option String)
    (hpre : ∀ x ∈ pre, x.id ≠ i) (he : e.id = i) :
    (edit_expense { expenses := pre ++ e :: post, file := f } i d a c dt).2.expenses
        = pre ++ apply_edit e d a c dt :: post
  ∧ (apply_edit e d a c dt).id = e.id
  ∧ (apply_edit e d a c dt).created_at = e.created_at
  ∧ (apply_edit e d a c dt).description
      = (if truthy_str d then d.getD e.description else e.description)
  ∧ (apply_edit e d a c dt).amount
      = (if truthy_num a then a.getD e.amount else e.amount)
  ∧ (apply_edit e d a c dt).category
      = (if truthy_str c then c.getD e.category else e.category)
  ∧ (apply_edit e d a c dt).date
      = (if truthy_str dt then dt.getD e.date else e.date)
  ∧ (∀ q : Rat, q ≠ 0 →
      apply_edit e none (some q) none none = { e with amount := q }) := by
  have hl := edit_loop_first_match pre post e i d a c dt hpre he
  refine ⟨?_, ?_, ?_, ?_, ?_, ?_, ?_, ?_⟩
  · simp [edit_expense, hl, save_expenses]
  · rw [apply_edit_fields]
  · rw [apply_edit_fields]
  · rw [apply_edit_fields]
  · rw [apply_edit_fields]
  · rw [apply_edit_fields]
  · rw [apply_edit_fields]
  · intro q hq
    rw [apply_edit_fields]
    simp [truthy_str, truthy_num, hq]

/-- Witness for claim C1: editing id 1 with only amount `3` set, in a
store of three records, rewrites only the amount of the middle (first
matching) record. -/
theorem edit_updates_truthy_fields_of_first_match_witness :
    (edit_expense { expenses := [edit_w1, edit_target, edit_w2], file := none } 1
        none (some 3) none none).2.expenses
      = [edit_w1, { edit_target with amount := 3 }, edit_w2] := by
  have h := edit_updates_truthy_fields_of_first_match [edit_w1] [edit_w2]
    edit_target none 1 none (some 3) none none (by decide) (by decide)
  exact h.1.trans (by decide)

/-- Claim C2: adding records to the empty store assigns ids `1..N` in
insertion order, each `add_expense` appending one record whose id is the
current length plus one; and the concrete delete-then-add run `dup_state`
ends with two records sharing id 2 (the duplicate-id quirk is kept). -/
theorem add_assigns_sequential_ids (args : List AddArgs) (s : State) (x : AddArgs) :
    (add_all empty_state args).expenses.map (fun e => e.id)
        = (List.range' 1 args.length).map (fun n => (n : Int))
  ∧ (add_expense s x.description x.amount x.category x.date x.now).2.expenses
        = s.expenses
          ++ [{ id := (s.expenses.length : Int) + 1, description := x.description,
                amount := x.amount, category := x.category, date := x.date,
                created_at := x.now }]
  ∧ dup_state.expenses.map (fun e => e.id) = [2, 2]
  ∧ ¬ (dup_state.expenses.map (fun e => e.id)).Nodup := by
  refine ⟨?_, rfl, by decide, by decide⟩
  have h := add_all_ids args empty_state
  simpa [empty_state] using h

/-- Claim C3: `delete_expense` removes every record whose id matches and
keeps every other record (with multiplicity), reports deletion, and
persists the resulting store unconditionally. -/
theorem delete_removes_all_matches_and_persists (es : List Expense)
    (f : Option Json) (i : Int) :
    (∀ e : Expense, ((delete_expense { expenses := es, file := f } i).2.expenses.count e)
        = if e.id = i then 0 else es.count e)
  ∧ (delete_expense { expenses := es, file := f } i).1 = [Line.deleted i]
  ∧ load_expenses (delete_expense { expenses := es, file := f } i).2.file
      = some (delete_expense { expenses := es, file := f } i).2.expenses := by
  refine ⟨?_, rfl, ?_⟩
  · intro e
    by_cases h : e.id = i
    · rw [if_pos h, List.count_eq_zero]
      intro hmem
      simp only [delete_expense, save_expenses, List.mem_filter,
        decide_eq_true_eq] at hmem
      exact hmem.2 h
    · rw [if_neg h]
      simp only [delete_expense, save_expenses]
      exact List.count_filter (by simpa using h)
  · simp [delete_expense, save_expenses, load_expenses, store_round_trip]

/-- Witness for claim C3: deleting id 1 from a store holding two records
that share id 1 removes both. -/
theorem delete_removes_all_matches_and_persists_witness :
    ((delete_expense { expenses := [dupA, dupB], file := none } 1).2.expenses.count dupA = 0)
  ∧ ((delete_expense { expenses := [dupA, dupB], file := none } 1).2.expenses.count dupB = 0) := by
  have h := delete_removes_all_matches_and_persists [dupA, dupB] none 1
  exact ⟨(h.1 dupA).trans (if_pos (by decide)), (h.1 dupB).trans (if_pos (by decide))⟩

/-- Claim C4: `monthly_report` selects exactly the records whose date
starts with the `"YYYY-MM"` string built from the year and zero-padded
month, and on a non-empty selection reports the sum of the selected
amounts followed by one entry per selected record. -/
theorem monthly_report_selection_and_total (es : List Expense) (f : Option Json)
    (month year : Nat) :
    (∀ e, e ∈ monthly_sel es month year
        ↔ e ∈ es ∧ ∃ t : String, e.date = month_str year month ++ t)
  ∧ (monthly_sel es month year ≠ [] →
      (monthly_report { expenses := es, file := f } month year).1
        = Line.monthlyHeader (month_str year month)
            (((monthly_sel es month year).map (fun e => e.amount)).sum)
          :: (monthly_sel es month year).map
               (fun e => Line.reportEntry e.description e.amount e.date)) := by
  constructor
  · intro e
    simp only [monthly_sel, List.mem_filter, starts_with_iff]
  · intro hne
    simp only [monthly_report]
    rw [if_neg hne]
    rfl

/-- Witness for claim C4: over records dated `2024-01-15`, `2024-02-01`,
`2024-01-31`, the report for month 1 of 2024 selects exactly the two
January records and totals their two amounts. -/
theorem monthly_report_selection_and_total_witness :
    monthly_sel [exJan15, exFeb01, exJan31] 1 2024 = [exJan15, exJan31]
  ∧ (monthly_report { expenses := [exJan15, exFeb01, exJan31], file := none } 1 2024).1
      = Line.monthlyHeader "2024-01" (exJan15.amount + exJan31.amount)
        :: [Line.reportEntry exJan15.description exJan15.amount exJan15.date,
            Line.reportEntry exJan31.description exJan31.amount exJan31.date] := by
  have h := monthly_report_selection_and_total [exJan15, exFeb01, exJan31] none 1 2024
  have hsel : monthly_sel [exJan15, exFeb01, exJan31] 1 2024 = [exJan15, exJan31] := by
    decide
  refine ⟨hsel, ?_⟩
  rw [h.2 (by decide), hsel, show month_str 2024 1 = "2024-01" from by decide]
  simp

/-- Claim C5: `category_report` selects exactly the records whose lowered
category equals the lowered argument (exact match after case-folding),
and on a non-empty selection reports the sum of the selected amounts
followed by one entry per selected record. -/
theorem category_report_selection_and_total (es : List Expense) (f : Option Json)
    (cat : String) :
    (∀ e, e ∈ category_sel es cat
        ↔ e ∈ es ∧ str_lower e.category = str_lower cat)
  ∧ (category_sel es cat ≠ [] →
      (category_report { expenses := es, file := f } cat).1
        = Line.categoryHeader cat
            (((category_sel es cat).map (fun e => e.amount)).sum)
          :: (category_sel es cat).map
               (fun e => Line.reportEntry e.description e.amount e.date)) := by
  constructor
  · intro e
    simp only [category_sel, List.mem_filter, decide_eq_true_eq]
  · intro hne
    simp only [category_report]
    rw [if_neg hne]
    rfl

/-- Witness for claim C5: a record with category `"Food"` is selected by
the category report for `"food"` and for `"FOOD"`, a record with the
superstring category `"Fast Food"` is not selected by `"Food"`, and the
report lists the match with its amount as the total. -/
theorem category_report_selection_and_total_witness :
    exJan15 ∈ category_sel [exJan15] "food"
  ∧ exJan15 ∈ category_sel [exJan15] "FOOD"
  ∧ exFast ∉ category_sel [exFast] "Food"
  ∧ (category_report { expenses := [exJan15], file := none } "food").1
      = Line.categoryHeader "food" (exJan15.amount)
        :: [Line.reportEntry exJan15.description exJan15.amount exJan15.date] := by
  have h := category_report_selection_and_total [exJan15] none "food"
  refine ⟨(h.1 exJan15).mpr ⟨by decide, by decide⟩, by decide, by decide, ?_⟩
  rw [h.2 (by decide), show category_sel [exJan15] "food" = [exJan15] from by decide]
  simp

/-- Claim C6: editing an id no record carries leaves the whole state
(in-memory list and persisted file) unchanged and reports not-found. -/
theorem edit_not_found_leaves_state_unchanged (es : List Expense) (f : Option Json)
    (i : Int) (d : Option String) (a : Option Rat) (c : Option String)
    (dt : Option String) (h : ∀ e ∈ es, e.id ≠ i) :
    edit_expense { expenses := es, file := f } i d a c dt
      = ([Line.notFound i], { expenses := es, file := f }) := by
  have hl := edit_loop_no_match es i d a c dt h
  simp [edit_expense, hl]

/-- Witness for claim C6: editing id 5 in a store whose only record has
id 1 changes nothing and reports not-found. -/
theorem edit_not_found_leaves_state_unchanged_witness :
    edit_expense { expenses := [edit_target], file := none } 5 none (some 3) none none
      = ([Line.notFound 5], { expenses := [edit_target], file := none }) :=
  edit_not_found_leaves_state_unchanged [edit_target] none 5 none (some 3) none none
    (by decide)

/-- Claim C7: persisting a store writes its serialization, and loading
that back yields the identical ordered sequence of records. -/
theorem save_then_load_round_trip (es : List Expense) (f : Option Json) :
    (save_expenses { expenses := es, file := f }).file = some (store_to_json es)
  ∧ load_expenses (save_expenses { expenses := es, file := f }).file = some es := by
  refine ⟨rfl, ?_⟩
  simp [save_expenses, load_expenses, store_round_trip]

/-- Claim C8: immediately after `add_expense`, after `delete_expense`,
and after `edit_expense` on a matching id, the persisted file loads back
to exactly the in-memory expenses sequence. -/
theorem mutations_persist_immediately
    (es : List Expense) (f : Option Json) (d0 : String) (a0 : Rat)
    (c0 dt0 now : String) (i j : Int) (d : Option String) (a : Option Rat)
    (c : Option String) (dt : Option String)
    (hfound : ∃ e ∈ es, e.id = i) :
    load_expenses (add_expense { expenses := es, file := f } d0 a0 c0 dt0 now).2.file
        = some (add_expense { expenses := es, file := f } d0 a0 c0 dt0 now).2.expenses
  ∧ load_expenses (delete_expense { expenses := es, file := f } j).2.file
        = some (delete_expense { expenses := es, file := f } j).2.expenses
  ∧ load_expenses (edit_expense { expenses := es, file := f } i d a c dt).2.file
        = some (edit_expense { expenses := es, file := f } i d a c dt).2.expenses := by
  refine ⟨?_, ?_, ?_⟩
  · simp [add_expense, save_expenses, load_expenses, store_round_trip]
  · simp [delete_expense, save_expenses, load_expenses, store_round_trip]
  · have h2 := edit_loop_found es i d a c dt hfound
    simp [edit_expense, h2, save_expenses, load_expenses, store_round_trip]

/-- Witness for claim C8: after editing the matching record of a concrete
one-record store, the file loads back to the in-memory list. -/
theorem mutations_persist_immediately_witness :
    load_expenses (edit_expense { expenses := [edit_target], file := none } 1
        none (some 3) none none).2.file
      = some (edit_expense { expenses := [edit_target], file := none } 1
          none (some 3) none none).2.expenses :=
  (mutations_persist_immediately [edit_target] none "d" 1 "c" "2024-01-01" "t"
    1 2 none (some 3) none none ⟨edit_target, by decide, by decide⟩).2.2

/-- Claim C9: listing an empty store and reporting a month or category
with no matches each produce an explicit one-line message, never empty
output. -/
theorem empty_and_no_match_reports (es : List Expense) (f : Option Json)
    (month year : Nat) (cat : String) :
    (es = [] → (list_expenses { expenses := es, file := f }).1 = [Line.emptyList])
  ∧ (monthly_sel es month year = [] →
      (monthly_report { expenses := es, file := f } month year).1
        = [Line.noMonthly (month_str year month)])
  ∧ (category_sel es cat = [] →
      (category_report { expenses := es, file := f } cat).1
        = [Line.noCategory cat]) := by
  refine ⟨fun h => ?_, fun h => ?_, fun h => ?_⟩
  · simp [list_expenses, h]
  · simp [monthly_report, h]
  · simp [category_report, h]

/-- Witness for claim C9: the three explicit messages on the empty store. -/
theorem empty_and_no_match_reports_witness :
    (list_expenses { expenses := [], file := none }).1 = [Line.emptyList]
  ∧ (monthly_report { expenses := [], file := none } 1 2024).1
      = [Line.noMonthly "2024-01"]
  ∧ (category_report { expenses := [], file := none } "food").1
      = [Line.noCategory "food"] := by
  have h := empty_and_no_match_reports [] none 1 2024 "food"
  exact ⟨h.1 rfl, (h.2.1 rfl).trans (by decide), h.2.2 rfl⟩

/-- Claim C10: listing and the two reports return the state they were
given: the in-memory list and the persisted file are untouched. -/
theorem reports_leave_state_unchanged (s : State) (month year : Nat) (cat : String) :
    (list_expenses s).2 = s
  ∧ (monthly_report s month year).2 = s
  ∧ (category_report s cat).2 = s := by
  refine ⟨?_, ?_, ?_⟩
  · simp only [list_expenses]
    split <;> rfl
  · simp only [monthly_report]
    split <;> rfl
  · simp only [category_report]
    split <;> rfl
